import Mathlib

/-!
Verification development for the repository-state tracker (`RepoStateFile.ts`)
and the custom-tips diagnostics formatter of the rushstack excerpt.

The embedding translates the TypeScript sources into executable Lean
definitions.  External collaborators (the JSON parser/stringifier of
`@rushstack/node-core-library`, the file system, `PrintUtilities.wrapWords`,
the hashing collaborators reached through `RushConfiguration`) are modelled
as explicit parameters or as fields carrying the values those collaborators
would return for the tracker's variant; everything that lives in the two
source files under scrutiny is translated directly.
-/

namespace RushStack

/-- The raw `repo-state.json` record (`IRepoStateJson` in the source).
Both fields are optional strings. -/
structure IRepoStateJson where
  pnpmShrinkwrapHash : Option String
  preferredVersionsHash : Option String
deriving Repr, DecidableEq

/-- In-memory state of the `RepoStateFile` tracker class: the private fields
`_repoStateFilePath`, `_variant`, `_pnpmShrinkwrapHash`,
`_preferredVersionsHash`, `_isValid` and `_modified`. -/
structure RepoStateFile where
  repoStateFilePath : String
  variant : Option String
  pnpmShrinkwrapHash : Option String
  preferredVersionsHash : Option String
  isValid : Bool
  modified : Bool
deriving Repr, DecidableEq

/-- Outcome of `JsonFile.parseString` followed by the schema check, an
external collaborator: `parseError` models a thrown parse exception,
`badSchema` models content that parses as JSON but does not conform to the
two-field `repo-state.schema.json` (so `validateObject` would throw), and
`ok` carries a record conforming to the schema. -/
inductive JsonParse where
  | parseError
  | badSchema
  | ok (json : IRepoStateJson)
deriving Repr, DecidableEq

/-- Index of the first occurrence of character `c` in `cs` at position
`start` or later (JavaScript `String.indexOf(c, start)`, with `none` for
`-1`). -/
def idxOfFrom (c : Char) : List Char → Nat → Option Nat
  | [], _ => none
  | x :: xs, 0 => if x = c then some 0 else (idxOfFrom c xs 0).map (· + 1)
  | _ :: xs, n + 1 => (idxOfFrom c xs n).map (· + 1)

theorem idxOfFrom_bounds (c : Char) :
    ∀ (cs : List Char) (start j : Nat), idxOfFrom c cs start = some j →
      start ≤ j ∧ j < cs.length := by
  intro cs
  induction cs with
  | nil => intro start j h; simp [idxOfFrom] at h
  | cons x xs ih =>
    intro start j h
    cases start with
    | zero =>
      by_cases hx : x = c
      · simp [idxOfFrom, hx] at h
        constructor
        · omega
        · simp only [List.length_cons]
          omega
      · simp [idxOfFrom, hx] at h
        obtain ⟨j', hj', rfl⟩ := h
        have := ih 0 j' hj'
        constructor
        · omega
        · simp
          omega
    | succ n =>
      simp [idxOfFrom] at h
      obtain ⟨j', hj', rfl⟩ := h
      have := ih n j' hj'
      constructor
      · omega
      · simp
        omega

/-- The seven-character Git merge-conflict marker searched for by
`loadFromFile`. -/
def conflictMarker : List Char := "<<<<<<<".toList

/-- One pass of the `for` loop in `loadFromFile` that scans for a merge
conflict marker.  `i` plays the role of `nextNewlineIndex`: the loop body
checks `fileContents.substr(nextNewlineIndex + 1, 7) === '<<<<<<<'` and the
update step is `nextNewlineIndex = fileContents.indexOf('\n',
nextNewlineIndex + 1)`, the loop ending when that is `-1`.  The fuel is
spent once per iteration; since `nextNewlineIndex` strictly increases and
stays below the content length, `cs.length + 1` units of fuel always
suffice. -/
def markerScanLoop (cs : List Char) : Nat → Nat → Bool
  | _, 0 => false
  | i, fuel + 1 =>
    if (cs.drop (i + 1)).take 7 = conflictMarker then true
    else
      match idxOfFrom '\n' cs (i + 1) with
      | none => false
      | some j => markerScanLoop cs j fuel

/-- Whether the merge-conflict scan of `loadFromFile`, started with
`nextNewlineIndex = 0`, finds a marker in the given content. -/
def hasMergeConflictMarker (fileContents : String) : Bool :=
  markerScanLoop fileContents.toList 0 (fileContents.toList.length + 1)

theorem idxOfFrom_get (c : Char) :
    ∀ (cs : List Char) (start j : Nat), idxOfFrom c cs start = some j →
      ∃ hj : j < cs.length, cs.get ⟨j, hj⟩ = c := by
  intro cs
  induction cs with
  | nil => intro start j h; simp [idxOfFrom] at h
  | cons x xs ih =>
    intro start j h
    cases start with
    | zero =>
      by_cases hx : x = c
      · simp [idxOfFrom, hx] at h
        subst h
        exact ⟨by simp, hx⟩
      · simp [idxOfFrom, hx] at h
        obtain ⟨j', hj', rfl⟩ := h
        obtain ⟨hlt, hget⟩ := ih 0 j' hj'
        exact ⟨by simpa using Nat.succ_lt_succ hlt, by simpa using hget⟩
    | succ n =>
      simp [idxOfFrom] at h
      obtain ⟨j', hj', rfl⟩ := h
      obtain ⟨hlt, hget⟩ := ih n j' hj'
      exact ⟨by simpa using Nat.succ_lt_succ hlt, by simpa using hget⟩

/-- Positions the merge-conflict scan actually examines: when it reports a
marker, the marker sits either at offset 1 (what the `substr` check sees
on the first iteration, where `nextNewlineIndex = 0`) or immediately after
some newline character. -/
theorem markerScanLoop_found (cs : List Char) :
    ∀ (fuel i : Nat), markerScanLoop cs i fuel = true →
      (cs.drop (i + 1)).take 7 = conflictMarker ∨
      ∃ p, ∃ hp : p < cs.length, cs.get ⟨p, hp⟩ = '\n' ∧
        (cs.drop (p + 1)).take 7 = conflictMarker := by
  intro fuel
  induction fuel with
  | zero => intro i h; simp [markerScanLoop] at h
  | succ fuel ih =>
    intro i h
    rw [markerScanLoop] at h
    by_cases hc : (cs.drop (i + 1)).take 7 = conflictMarker
    · exact Or.inl hc
    · rw [if_neg hc] at h
      cases hidx : idxOfFrom '\n' cs (i + 1) with
      | none =>
        rw [hidx] at h
        simp at h
      | some j =>
        rw [hidx] at h
        rcases ih j h with hj | hrest
        · obtain ⟨hjlt, hjget⟩ := idxOfFrom_get '\n' cs (i + 1) j hidx
          exact Or.inr ⟨j, hjlt, hjget, hj⟩
        · exact Or.inr hrest

theorem hasMergeConflictMarker_found (s : String)
    (h : hasMergeConflictMarker s = true) :
    (s.toList.drop 1).take 7 = conflictMarker ∨
    ∃ p, ∃ hp : p < s.toList.length, s.toList.get ⟨p, hp⟩ = '\n' ∧
      (s.toList.drop (p + 1)).take 7 = conflictMarker :=
  markerScanLoop_found s.toList (s.toList.length + 1) 0 h

/-- The `RepoStateFile` private constructor: copies the hash fields out of
the record when one is supplied. -/
def RepoStateFile.ctor (repoStateJson : Option IRepoStateJson) (isValid : Bool)
    (filePath : String) (variant : Option String) : RepoStateFile :=
  { repoStateFilePath := filePath
    variant := variant
    pnpmShrinkwrapHash := (repoStateJson.map (·.pnpmShrinkwrapHash)).getD none
    preferredVersionsHash := (repoStateJson.map (·.preferredVersionsHash)).getD none
    isValid := isValid
    modified := false }

/-- Model of `RepoStateFile.loadFromFile`.  `parse` models the external
`JsonFile.parseString` plus the subsequent schema validation;
`fileContents` is the result of `FileSystem.readFile` (`none` when the file
does not exist — any other read error is re-thrown by the source before
this logic runs and is outside the model).  An `Except.error` models a
thrown exception escaping `loadFromFile`; the synthesized
merge-conflict record (both fields the string INVALID) conforms to the
schema, so its `validateObject` call never throws. -/
def loadFromFile (parse : String → JsonParse) (fileContents : Option String)
    (jsonFilename : String) (variant : Option String) :
    Except String RepoStateFile :=
  match fileContents with
  | none => Except.ok (RepoStateFile.ctor none true jsonFilename variant)
  | some contents =>
    match parse contents with
    | JsonParse.ok json =>
      Except.ok (RepoStateFile.ctor (some json) true jsonFilename variant)
    | JsonParse.badSchema =>
      Except.error ("JSON validation failed: " ++ jsonFilename)
    | JsonParse.parseError =>
      if hasMergeConflictMarker contents then
        Except.ok (RepoStateFile.ctor
          (some { pnpmShrinkwrapHash := some "INVALID",
                  preferredVersionsHash := some "INVALID" })
          false jsonFilename variant)
      else
        Except.ok (RepoStateFile.ctor none true jsonFilename variant)

/-- The slice of `PnpmOptionsConfiguration` that `refreshState` reads. -/
structure PnpmOptionsConfiguration where
  preventManualShrinkwrapChanges : Bool
  useWorkspaces : Bool
deriving Repr, DecidableEq

/-- The committed pnpm shrinkwrap file collaborator: `getShrinkwrapHash`
takes the `omitImporters` option and returns the content hash. -/
structure PnpmShrinkwrapFile where
  getShrinkwrapHash : Bool → String

/-- The slice of `RushConfiguration` (and the collaborators reached through
it) that `refreshState` consumes.  `committedShrinkwrapFile` is the result
of `PnpmShrinkwrapFile.loadFromFile` on
`getCommittedShrinkwrapFilename(variant)` (`none` when that file cannot be
located), and `preferredVersionsHash` is what
`getCommonVersions(variant).getPreferredVersionsHash()` returns. -/
structure RushConfiguration where
  packageManager : String
  pnpmOptions : Option PnpmOptionsConfiguration
  omitImportersFromPreventManualShrinkwrapChanges : Bool
  committedShrinkwrapFile : Option PnpmShrinkwrapFile
  preferredVersionsHash : String

/-- The guard `rushConfiguration.packageManager === 'pnpm' &&
rushConfiguration.pnpmOptions &&
rushConfiguration.pnpmOptions.preventManualShrinkwrapChanges` (an
`undefined` `pnpmOptions` is falsy). -/
def preventShrinkwrapChanges (rc : RushConfiguration) : Bool :=
  rc.packageManager == "pnpm" &&
    (rc.pnpmOptions.map (·.preventManualShrinkwrapChanges)).getD false

/-- The guard `rushConfiguration.pnpmOptions &&
rushConfiguration.pnpmOptions.useWorkspaces`. -/
def useWorkspaces (rc : RushConfiguration) : Bool :=
  (rc.pnpmOptions.map (·.useWorkspaces)).getD false

/-- The first block of `refreshState`: reconcile `_pnpmShrinkwrapHash`. -/
def refreshShrinkwrap (rc : RushConfiguration) (t : RepoStateFile) :
    RepoStateFile :=
  if preventShrinkwrapChanges rc then
    match rc.committedShrinkwrapFile with
    | some pnpmShrinkwrapFile =>
      let shrinkwrapFileHash : String :=
        pnpmShrinkwrapFile.getShrinkwrapHash
          rc.omitImportersFromPreventManualShrinkwrapChanges
      if t.pnpmShrinkwrapHash ≠ some shrinkwrapFileHash then
        { t with pnpmShrinkwrapHash := some shrinkwrapFileHash, modified := true }
      else t
    | none => t
  else if t.pnpmShrinkwrapHash ≠ none then
    { t with pnpmShrinkwrapHash := none, modified := true }
  else t

/-- The second block of `refreshState`: reconcile `_preferredVersionsHash`. -/
def refreshPreferredVersions (rc : RushConfiguration) (t : RepoStateFile) :
    RepoStateFile :=
  if useWorkspaces rc then
    let preferredVersionsHash : String := rc.preferredVersionsHash
    if t.preferredVersionsHash ≠ some preferredVersionsHash then
      { t with preferredVersionsHash := some preferredVersionsHash, modified := true }
    else t
  else if t.preferredVersionsHash ≠ none then
    { t with preferredVersionsHash := none, modified := true }
  else t

/-- JavaScript truthiness of an optional string: `undefined` and the empty
string are falsy. -/
def truthyString : Option String → Bool
  | none => false
  | some s => s != ""

/-- Model of `RepoStateFile._serialize` without the final `JsonFile.stringify` call:
builds the record field by field, including a field only when the stored
value is truthy. -/
def serializeRecord (t : RepoStateFile) : IRepoStateJson :=
  { pnpmShrinkwrapHash :=
      if truthyString t.pnpmShrinkwrapHash then t.pnpmShrinkwrapHash else none
    preferredVersionsHash :=
      if truthyString t.preferredVersionsHash then t.preferredVersionsHash else none }

/-- The banner comment written by `_saveIfModified`. -/
def bannerComment : String :=
  "// DO NOT MODIFY THIS FILE MANUALLY BUT DO COMMIT IT. It is generated and used by Rush."

/-- The full file content written by `_saveIfModified`: the banner, an LF
(`NewlineKind.Lf`), then the serialized record — `stringify` models the
external `JsonFile.stringify` with LF newline conversion. -/
def saveContent (stringify : IRepoStateJson → String) (t : RepoStateFile) :
    String :=
  bannerComment ++ "\n" ++ stringify (serializeRecord t)

/-- Result of a `refreshState` / `_saveIfModified` call: the tracker state
afterwards, the returned boolean, and the content handed to
`FileSystem.writeFile` when a write happened. -/
structure SaveOutcome where
  tracker : RepoStateFile
  didWrite : Bool
  written : Option String
deriving Repr, DecidableEq

/-- Model of `RepoStateFile._saveIfModified`. -/
def saveIfModified (stringify : IRepoStateJson → String) (t : RepoStateFile) :
    SaveOutcome :=
  if t.modified then
    { tracker := { t with modified := false }
      didWrite := true
      written := some (saveContent stringify t) }
  else
    { tracker := t, didWrite := false, written := none }

/-- Model of `RepoStateFile.refreshState`: reconcile the shrinkwrap hash, then the
preferred-versions hash, set `_isValid` to `true`, and save if modified. -/
def refreshState (stringify : IRepoStateJson → String)
    (rc : RushConfiguration) (t : RepoStateFile) : SaveOutcome :=
  saveIfModified stringify
    { refreshPreferredVersions rc (refreshShrinkwrap rc t) with isValid := true }

/-- The `CustomTipId` string enum of `CustomTipsConfiguration.ts`. -/
inductive CustomTipId where
  | TIP_PNPM_UNEXPECTED_STORE
  | TIP_RUSH_INCONSISTENT_VERSIONS
  | TIP_PNPM_NO_MATCHING_VERSION
  | TIP_PNPM_NO_MATCHING_VERSION_INSIDE_WORKSPACE
  | TIP_PNPM_PEER_DEP_ISSUES
  | TIP_PNPM_OUTDATED_LOCKFILE
  | TIP_PNPM_TARBALL_INTEGRITY
  | TIP_PNPM_MISMATCHED_RELEASE_CHANNEL
  | TIP_PNPM_INVALID_NODE_VERSION
deriving Repr, DecidableEq

/-- The string value of a `CustomTipId` enum member (member name and value
coincide in the source). -/
def CustomTipId.value : CustomTipId → String
  | .TIP_PNPM_UNEXPECTED_STORE => "TIP_PNPM_UNEXPECTED_STORE"
  | .TIP_RUSH_INCONSISTENT_VERSIONS => "TIP_RUSH_INCONSISTENT_VERSIONS"
  | .TIP_PNPM_NO_MATCHING_VERSION => "TIP_PNPM_NO_MATCHING_VERSION"
  | .TIP_PNPM_NO_MATCHING_VERSION_INSIDE_WORKSPACE =>
      "TIP_PNPM_NO_MATCHING_VERSION_INSIDE_WORKSPACE"
  | .TIP_PNPM_PEER_DEP_ISSUES => "TIP_PNPM_PEER_DEP_ISSUES"
  | .TIP_PNPM_OUTDATED_LOCKFILE => "TIP_PNPM_OUTDATED_LOCKFILE"
  | .TIP_PNPM_TARBALL_INTEGRITY => "TIP_PNPM_TARBALL_INTEGRITY"
  | .TIP_PNPM_MISMATCHED_RELEASE_CHANNEL => "TIP_PNPM_MISMATCHED_RELEASE_CHANNEL"
  | .TIP_PNPM_INVALID_NODE_VERSION => "TIP_PNPM_INVALID_NODE_VERSION"

/-- The runtime membership test `tipItem.tipId in CustomTipId`: a raw string
from the JSON file is a member exactly when it equals one of the enum keys
(for this string enum, key and value coincide). -/
def CustomTipId.ofString (s : String) : Option CustomTipId :=
  if s == "TIP_PNPM_UNEXPECTED_STORE" then some .TIP_PNPM_UNEXPECTED_STORE
  else if s == "TIP_RUSH_INCONSISTENT_VERSIONS" then some .TIP_RUSH_INCONSISTENT_VERSIONS
  else if s == "TIP_PNPM_NO_MATCHING_VERSION" then some .TIP_PNPM_NO_MATCHING_VERSION
  else if s == "TIP_PNPM_NO_MATCHING_VERSION_INSIDE_WORKSPACE" then
    some .TIP_PNPM_NO_MATCHING_VERSION_INSIDE_WORKSPACE
  else if s == "TIP_PNPM_PEER_DEP_ISSUES" then some .TIP_PNPM_PEER_DEP_ISSUES
  else if s == "TIP_PNPM_OUTDATED_LOCKFILE" then some .TIP_PNPM_OUTDATED_LOCKFILE
  else if s == "TIP_PNPM_TARBALL_INTEGRITY" then some .TIP_PNPM_TARBALL_INTEGRITY
  else if s == "TIP_PNPM_MISMATCHED_RELEASE_CHANNEL" then
    some .TIP_PNPM_MISMATCHED_RELEASE_CHANNEL
  else if s == "TIP_PNPM_INVALID_NODE_VERSION" then some .TIP_PNPM_INVALID_NODE_VERSION
  else none

/-- The `CustomTipSeverity` enum. -/
inductive CustomTipSeverity where
  | Warning
  | Error
  | Info
deriving Repr, DecidableEq

/-- The `CustomTipType` enum. -/
inductive CustomTipType where
  | rush
  | pnpm
deriving Repr, DecidableEq

/-- An item of the `customTips` list in `custom-tips.json`
(`ICustomTipItemJson`).  Its `tipId` is the raw string found in the JSON
file; the constructor validates it against the enum. -/
structure ICustomTipItemJson where
  tipId : String
  message : String
deriving Repr, DecidableEq

/-- The raw `custom-tips.json` file (`ICustomTipsJson`). -/
structure ICustomTipsJson where
  customTips : Option (List ICustomTipItemJson)

/-- JavaScript `String.prototype.includes` on character lists. -/
def charsInclude (target : List Char) : List Char → Bool
  | [] => target.isEmpty
  | c :: cs => target.isPrefixOf (c :: cs) || charsInclude target cs

/-- JavaScript `str.includes(target)`. -/
def strIncludes (str target : String) : Bool :=
  charsInclude target.toList str.toList

/-- Metadata record of the static registry (`ICustomTipInfo`). -/
structure ICustomTipInfo where
  tipId : CustomTipId
  severity : CustomTipSeverity
  type : CustomTipType
  isMatch : Option (String → Bool)

/-- Model of `CustomTipsConfiguration.customTipRegistry`: the static, closed mapping
from tip identifiers to their metadata. -/
def customTipRegistry : CustomTipId → ICustomTipInfo
  | .TIP_RUSH_INCONSISTENT_VERSIONS =>
    { tipId := .TIP_RUSH_INCONSISTENT_VERSIONS
      severity := .Error
      type := .rush
      isMatch := none }
  | .TIP_PNPM_UNEXPECTED_STORE =>
    { tipId := .TIP_PNPM_UNEXPECTED_STORE
      severity := .Error
      type := .pnpm
      isMatch := some (fun str => strIncludes str "ERR_PNPM_UNEXPECTED_STORE") }
  | .TIP_PNPM_NO_MATCHING_VERSION =>
    { tipId := .TIP_PNPM_NO_MATCHING_VERSION
      severity := .Error
      type := .pnpm
      isMatch := some (fun str =>
        strIncludes str "No matching version found for" &&
          strIncludes str "The latest release of") }
  | .TIP_PNPM_NO_MATCHING_VERSION_INSIDE_WORKSPACE =>
    { tipId := .TIP_PNPM_NO_MATCHING_VERSION_INSIDE_WORKSPACE
      severity := .Error
      type := .pnpm
      isMatch := some (fun str =>
        strIncludes str "ERR_PNPM_NO_MATCHING_VERSION_INSIDE_WORKSPACE") }
  | .TIP_PNPM_PEER_DEP_ISSUES =>
    { tipId := .TIP_PNPM_PEER_DEP_ISSUES
      severity := .Error
      type := .pnpm
      isMatch := some (fun str => strIncludes str "ERR_PNPM_PEER_DEP_ISSUES") }
  | .TIP_PNPM_OUTDATED_LOCKFILE =>
    { tipId := .TIP_PNPM_OUTDATED_LOCKFILE
      severity := .Error
      type := .pnpm
      isMatch := some (fun str => strIncludes str "ERR_PNPM_OUTDATED_LOCKFILE") }
  | .TIP_PNPM_TARBALL_INTEGRITY =>
    { tipId := .TIP_PNPM_TARBALL_INTEGRITY
      severity := .Error
      type := .pnpm
      isMatch := some (fun str => strIncludes str "ERR_PNPM_TARBALL_INTEGRITY") }
  | .TIP_PNPM_MISMATCHED_RELEASE_CHANNEL =>
    { tipId := .TIP_PNPM_MISMATCHED_RELEASE_CHANNEL
      severity := .Error
      type := .pnpm
      isMatch := some (fun str => strIncludes str "ERR_PNPM_MISMATCHED_RELEASE_CHANNEL") }
  | .TIP_PNPM_INVALID_NODE_VERSION =>
    { tipId := .TIP_PNPM_INVALID_NODE_VERSION
      severity := .Error
      type := .pnpm
      isMatch := some (fun str => strIncludes str "ERR_PNPM_INVALID_NODE_VERSION") }

/-- Node's `path.basename` for POSIX paths without a trailing separator:
the last slash-separated component. -/
def basename (p : String) : String :=
  (p.splitOn "/").getLastD ""

/-- The `_tipMap` of `CustomTipsConfiguration`: a `Map` keyed by the tip id
string, modelled as an insertion-ordered association list. -/
abbrev TipMap := List (String × ICustomTipItemJson)

/-- The validation/registration loop of the `CustomTipsConfiguration`
constructor over the `customTips` list: reject an id that is not a
`CustomTipId` member, reject a duplicate id, otherwise insert into the
map.  An `Except.error` models the thrown `Error` and carries its
message. -/
def buildTipMap (jsonFileName : String) :
    List ICustomTipItemJson → TipMap → Except String TipMap
  | [], tipMap => Except.ok tipMap
  | tipItem :: rest, tipMap =>
    if (CustomTipId.ofString tipItem.tipId).isNone then
      Except.error ("The " ++ basename jsonFileName ++ " configuration" ++
        " references an unknown ID \"" ++ tipItem.tipId ++ "\"")
    else if (tipMap.lookup tipItem.tipId).isSome then
      Except.error ("The " ++ basename jsonFileName ++ " configuration" ++
        " specifies a duplicate definition for \"" ++ tipItem.tipId ++ "\"")
    else
      buildTipMap jsonFileName rest (tipMap ++ [(tipItem.tipId, tipItem)])

/-- The observable state built by the `CustomTipsConfiguration`
constructor. -/
structure CustomTipsConfiguration where
  jsonFileName : String
  customTips : Option (List ICustomTipItemJson)
  tipMap : TipMap

/-- The `CustomTipsConfiguration` constructor.  `loaded` is the result of
the external `FileSystem.exists` / `JsonFile.loadAndValidate` pair: `none`
when the config file does not exist, otherwise the schema-validated JSON
content. -/
def customTipsConfigurationCtor (configFilename : String)
    (loaded : Option ICustomTipsJson) : Except String CustomTipsConfiguration :=
  match loaded with
  | none =>
    Except.ok { jsonFileName := configFilename, customTips := none, tipMap := [] }
  | some configuration =>
    match configuration.customTips with
    | none =>
      Except.ok { jsonFileName := configFilename, customTips := none, tipMap := [] }
    | some customTips =>
      (buildTipMap configFilename customTips []).map (fun tipMap =>
        { jsonFileName := configFilename, customTips := some customTips,
          tipMap := tipMap })

/-- One call on the `ITerminal` collaborator. -/
inductive TerminalWrite where
  | write (s : String)
  | writeLine (s : String)
  | writeError (s : String)
  | writeErrorLine (s : String)
  | writeWarning (s : String)
  | writeWarningLine (s : String)
deriving Repr, DecidableEq

/-- Text an `ITerminal` emits for one call (colors aside): the `...Line`
variants append a newline, the others write the text as is. -/
def renderWrite : TerminalWrite → String
  | .write s => s
  | .writeLine s => s ++ "\n"
  | .writeError s => s
  | .writeErrorLine s => s ++ "\n"
  | .writeWarning s => s
  | .writeWarningLine s => s ++ "\n"

/-- Text emitted for a whole sequence of terminal calls. -/
def render : List TerminalWrite → String
  | [] => ""
  | e :: es => renderWrite e ++ render es

/-- Model of `CustomTipsConfiguration._formatMessageHeader`. -/
def formatMessageHeader (tipId : CustomTipId) : String :=
  "| Custom Tip (" ++ tipId.value ++ ")\n|"

/-- JavaScript single-character `String.prototype.split` on character
lists: splitting the empty string yields one empty piece, and a trailing
separator yields a trailing empty piece. -/
def splitChars (sep : Char) : List Char → List (List Char)
  | [] => [[]]
  | x :: xs =>
    if x = sep then [] :: splitChars sep xs
    else
      match splitChars sep xs with
      | [] => [[x]]
      | piece :: pieces => (x :: piece) :: pieces

/-- The `wrappedAndIndentedMessage.split('\n')` call of
`_writeMessageWithPipes`. -/
def jsSplitOnNewline (s : String) : List String :=
  (splitChars '\n' s.toList).map (fun piece => String.mk piece)

/-- The per-line `line.replace(/^ \x7b2\x7d/, '')` of
`_writeMessageWithPipes`: drop one leading two-space indent if present. -/
def stripTwoSpaceIndent (line : String) : String :=
  match line.toList with
  | ' ' :: ' ' :: rest => String.mk rest
  | _ => line

/-- The header write of `_writeMessageWithPipes`: severity selects the
terminal channel. -/
def headerWrite (severity : CustomTipSeverity) (messageHeader : String) :
    TerminalWrite :=
  match severity with
  | .Error => .writeErrorLine messageHeader
  | .Warning => .writeWarningLine messageHeader
  | .Info => .writeLine messageHeader

/-- The per-line left-margin write of `_writeMessageWithPipes`: note that
the `Info` (default) branch of the source's `switch` uses `writeLine`, not
`write`, so for `Info` the margin goes onto a line of its own. -/
def marginWrite (severity : CustomTipSeverity) : TerminalWrite :=
  match severity with
  | .Error => .writeError "| "
  | .Warning => .writeWarning "| "
  | .Info => .writeLine "| "

/-- Model of `CustomTipsConfiguration._writeMessageWithPipes` as the sequence of
terminal calls it performs.  `wrapWords` models the external
`PrintUtilities.wrapWords(message, undefined, 2)` call (wrap to the console
width with a two-space indent). -/
def writeMessageWithPipes (wrapWords : String → String) (tipMap : TipMap)
    (severity : CustomTipSeverity) (tipId : CustomTipId) : List TerminalWrite :=
  match tipMap.lookup tipId.value with
  | none => []
  | some customTipJsonItem =>
    let messageHeader : String := formatMessageHeader tipId
    let wrappedAndIndentedMessage : String := wrapWords customTipJsonItem.message
    headerWrite severity messageHeader ::
      (jsSplitOnNewline wrappedAndIndentedMessage).flatMap (fun line =>
        [marginWrite severity, TerminalWrite.writeLine (stripTwoSpaceIndent line)]) ++
      [TerminalWrite.write "\n"]

/-- Model of `CustomTipsConfiguration._showTip`: severity comes from the static
registry. -/
def showTip (wrapWords : String → String) (tipMap : TipMap)
    (tipId : CustomTipId) : List TerminalWrite :=
  match tipMap.lookup tipId.value with
  | none => []
  | some _ =>
    writeMessageWithPipes wrapWords tipMap (customTipRegistry tipId).severity tipId

/-- Model of `CustomTipsConfiguration._showInfoTip`. -/
def showInfoTip (wrapWords : String → String) (tipMap : TipMap)
    (tipId : CustomTipId) : List TerminalWrite :=
  writeMessageWithPipes wrapWords tipMap CustomTipSeverity.Info tipId

/-- Model of `CustomTipsConfiguration._showWarningTip`. -/
def showWarningTip (wrapWords : String → String) (tipMap : TipMap)
    (tipId : CustomTipId) : List TerminalWrite :=
  writeMessageWithPipes wrapWords tipMap CustomTipSeverity.Warning tipId

/-- Model of `CustomTipsConfiguration._showErrorTip`. -/
def showErrorTip (wrapWords : String → String) (tipMap : TipMap)
    (tipId : CustomTipId) : List TerminalWrite :=
  writeMessageWithPipes wrapWords tipMap CustomTipSeverity.Error tipId

/-- Value the shrinkwrap-hash field holds after the first block of
`refreshState`, as a function of the configuration and the current value:
enabled and lockfile found — the fresh hash; enabled but lockfile missing —
unchanged; disabled — cleared. -/
def nextShrinkwrapHash (rc : RushConfiguration) (cur : Option String) :
    Option String :=
  if preventShrinkwrapChanges rc then
    match rc.committedShrinkwrapFile with
    | some f =>
      some (f.getShrinkwrapHash rc.omitImportersFromPreventManualShrinkwrapChanges)
    | none => cur
  else none

/-- Value the preferred-versions field holds after the second block of
`refreshState`: the fresh hash when workspaces are on, cleared otherwise. -/
def nextPreferredVersionsHash (rc : RushConfiguration) : Option String :=
  if useWorkspaces rc then some rc.preferredVersionsHash else none

theorem refreshShrinkwrap_eq (rc : RushConfiguration) (t : RepoStateFile) :
    refreshShrinkwrap rc t =
      { t with pnpmShrinkwrapHash := nextShrinkwrapHash rc t.pnpmShrinkwrapHash
               modified := t.modified ||
                 decide (t.pnpmShrinkwrapHash ≠ nextShrinkwrapHash rc t.pnpmShrinkwrapHash) } := by
  unfold refreshShrinkwrap nextShrinkwrapHash
  by_cases hp : preventShrinkwrapChanges rc
  · cases hf : rc.committedShrinkwrapFile with
    | some f =>
      by_cases hc : t.pnpmShrinkwrapHash =
          some (f.getShrinkwrapHash rc.omitImportersFromPreventManualShrinkwrapChanges)
      · simp [hp, hf, hc]
        rw [← hc]
      · simp [hp, hf, hc]
    | none => simp [hp, hf]
  · by_cases hc : t.pnpmShrinkwrapHash = none
    · simp [hp, hc]
      rw [← hc]
    · simp [hp, hc]

theorem refreshPreferredVersions_eq (rc : RushConfiguration) (t : RepoStateFile) :
    refreshPreferredVersions rc t =
      { t with preferredVersionsHash := nextPreferredVersionsHash rc
               modified := t.modified ||
                 decide (t.preferredVersionsHash ≠ nextPreferredVersionsHash rc) } := by
  unfold refreshPreferredVersions nextPreferredVersionsHash
  by_cases hw : useWorkspaces rc
  · by_cases hc : t.preferredVersionsHash = some rc.preferredVersionsHash
    · simp [hw, hc]
      rw [← hc]
    · simp [hw, hc]
  · by_cases hc : t.preferredVersionsHash = none
    · simp [hw, hc]
      rw [← hc]
    · simp [hw, hc]

theorem saveIfModified_tracker (stringify : IRepoStateJson → String)
    (t : RepoStateFile) :
    (saveIfModified stringify t).tracker = { t with modified := false } := by
  unfold saveIfModified
  by_cases hm : t.modified
  · simp [hm]
  · simp [hm]
    cases t
    simp_all

theorem refreshState_tracker_eq (stringify : IRepoStateJson → String)
    (rc : RushConfiguration) (t : RepoStateFile) :
    (refreshState stringify rc t).tracker =
      { t with pnpmShrinkwrapHash := nextShrinkwrapHash rc t.pnpmShrinkwrapHash
               preferredVersionsHash := nextPreferredVersionsHash rc
               isValid := true
               modified := false } := by
  unfold refreshState
  rw [saveIfModified_tracker]
  rw [refreshPreferredVersions_eq, refreshShrinkwrap_eq]

theorem nextShrinkwrapHash_idem (rc : RushConfiguration) (cur : Option String) :
    nextShrinkwrapHash rc (nextShrinkwrapHash rc cur) = nextShrinkwrapHash rc cur := by
  unfold nextShrinkwrapHash
  by_cases hp : preventShrinkwrapChanges rc
  · cases hf : rc.committedShrinkwrapFile <;> simp [hp, hf]
  · simp [hp]

theorem refreshShrinkwrap_fixed (rc : RushConfiguration) (t : RepoStateFile)
    (h : t.pnpmShrinkwrapHash = nextShrinkwrapHash rc t.pnpmShrinkwrapHash) :
    refreshShrinkwrap rc t = t := by
  rw [refreshShrinkwrap_eq, ← h]
  simp

theorem refreshPreferredVersions_fixed (rc : RushConfiguration) (t : RepoStateFile)
    (h : t.preferredVersionsHash = nextPreferredVersionsHash rc) :
    refreshPreferredVersions rc t = t := by
  rw [refreshPreferredVersions_eq, ← h]
  simp

/-- Parse collaborator whose every call fails, as `JsonFile.parseString`
does on content that is not JSON. -/
def alwaysParseFailure : String → JsonParse := fun _ => JsonParse.parseError

/-- Stringify collaborator stub used to close the concrete scenarios. -/
def stringifyStub : IRepoStateJson → String := fun _ => "json-body"

/-- Configuration with lockfile-drift tracking enabled but whose committed
lockfile cannot be located, and workspace tracking disabled. -/
def rcLockfileMissing : RushConfiguration :=
  { packageManager := "pnpm"
    pnpmOptions := some { preventManualShrinkwrapChanges := true, useWorkspaces := false }
    omitImportersFromPreventManualShrinkwrapChanges := false
    committedShrinkwrapFile := none
    preferredVersionsHash := "cafebabe" }

/-- Configuration with both tracking features enabled and the lockfile
present. -/
def rcBothOn : RushConfiguration :=
  { packageManager := "pnpm"
    pnpmOptions := some { preventManualShrinkwrapChanges := true, useWorkspaces := true }
    omitImportersFromPreventManualShrinkwrapChanges := false
    committedShrinkwrapFile := some { getShrinkwrapHash := fun _ => "swhash" }
    preferredVersionsHash := "pvhash" }

/-- Configuration with both tracking features disabled (not even using
pnpm). -/
def rcBothOff : RushConfiguration :=
  { packageManager := "npm"
    pnpmOptions := none
    omitImportersFromPreventManualShrinkwrapChanges := false
    committedShrinkwrapFile := none
    preferredVersionsHash := "pvhash" }

/-- Freshly loaded tracker with no stored hashes. -/
def emptyTracker : RepoStateFile :=
  { repoStateFilePath := "common/config/rush/repo-state.json"
    variant := none
    pnpmShrinkwrapHash := none
    preferredVersionsHash := none
    isValid := true
    modified := false }

/-- Tracker that carries stored values for both hash fields. -/
def trackerWithOldHash : RepoStateFile :=
  { emptyTracker with pnpmShrinkwrapHash := some "old", preferredVersionsHash := some "oldpv" }

/-- C1 (counterexample): a file whose content exists, fails to parse, and
contains no line beginning with the conflict marker does NOT make
`loadFromFile` propagate the failure: the `catch` block swallows the parse
error, so the call returns normally with a tracker whose hash fields are
absent and whose `isValid` is `true` — a usable tracker, contradicting the
claim that the failure is fatal. -/
theorem loadFromFile_unknown_corruption_cex :
    loadFromFile alwaysParseFailure (some "this is not json")
        "common/config/rush/repo-state.json" none =
      Except.ok { repoStateFilePath := "common/config/rush/repo-state.json"
                  variant := none
                  pnpmShrinkwrapHash := none
                  preferredVersionsHash := none
                  isValid := true
                  modified := false } := by
  rfl

/-- C1 (amended): for every file content that exists, fails to parse as
JSON, and in which the seven-character marker `<<<<<<<` occurs neither
starting at offset 1 (the second character — the only position the scan
examines on the first line, since `nextNewlineIndex` starts at `0`) nor
immediately after any newline character, `loadFromFile` swallows the
parse failure and returns a tracker with both hash fields absent and
`isValid = true`, exactly as if the file did not exist.  (At contents
with a marker at one of those examined positions the scan fires instead
and the call recovers with the `INVALID` sentinels, and a marker at the
very start of the content is missed — see the C2 result.) -/
theorem loadFromFile_swallows_unknown_corruption (parse : String → JsonParse)
    (contents jsonFilename : String) (variant : Option String)
    (h1 : parse contents = JsonParse.parseError)
    (h2 : (contents.toList.drop 1).take 7 ≠ conflictMarker)
    (h3 : ∀ p (hp : p < contents.toList.length),
      contents.toList.get ⟨p, hp⟩ = '\n' →
      (contents.toList.drop (p + 1)).take 7 ≠ conflictMarker) :
    loadFromFile parse (some contents) jsonFilename variant =
      Except.ok { repoStateFilePath := jsonFilename
                  variant := variant
                  pnpmShrinkwrapHash := none
                  preferredVersionsHash := none
                  isValid := true
                  modified := false } := by
  have hm : hasMergeConflictMarker contents = false := by
    cases hv : hasMergeConflictMarker contents
    · rfl
    · rcases hasMergeConflictMarker_found contents hv with hc | ⟨p, hp, hg, hc⟩
      · exact absurd hc h2
      · exact absurd hc (h3 p hp hg)
  simp [loadFromFile, h1, hm, RepoStateFile.ctor]

theorem loadFromFile_swallows_unknown_corruption_witness :
    alwaysParseFailure "oops\nstill not json" = JsonParse.parseError ∧
    ("oops\nstill not json".toList.drop 1).take 7 ≠ conflictMarker ∧
    (∀ p (hp : p < "oops\nstill not json".toList.length),
      "oops\nstill not json".toList.get ⟨p, hp⟩ = '\n' →
      ("oops\nstill not json".toList.drop (p + 1)).take 7 ≠ conflictMarker) ∧
    loadFromFile alwaysParseFailure (some "oops\nstill not json")
        "repo-state.json" none =
      Except.ok { repoStateFilePath := "repo-state.json"
                  variant := none
                  pnpmShrinkwrapHash := none
                  preferredVersionsHash := none
                  isValid := true
                  modified := false } :=
  ⟨rfl, by decide, by decide,
    loadFromFile_swallows_unknown_corruption alwaysParseFailure
      "oops\nstill not json" "repo-state.json" none rfl (by decide) (by decide)⟩

/-- C2 (code bug): the merge-conflict scan initializes `nextNewlineIndex`
to `0` and checks `substr(nextNewlineIndex + 1, 7)`, so the very first
character position of the content is never examined; a Git conflict marker
on the first line (at position 0) is therefore missed, the parse failure is
swallowed, and `loadFromFile` returns `isValid = true` with no `INVALID`
sentinels — contrary to the claim (and to the recovery intent stated in
the source comment). -/
theorem loadFromFile_misses_first_line_marker :
    hasMergeConflictMarker "<<<<<<< ours\n=======\n>>>>>>> theirs" = false ∧
    hasMergeConflictMarker "x\n<<<<<<< ours\n=======\n>>>>>>> theirs" = true ∧
    loadFromFile alwaysParseFailure (some "<<<<<<< ours\n=======\n>>>>>>> theirs")
        "common/config/rush/repo-state.json" none =
      Except.ok { repoStateFilePath := "common/config/rush/repo-state.json"
                  variant := none
                  pnpmShrinkwrapHash := none
                  preferredVersionsHash := none
                  isValid := true
                  modified := false } :=
  ⟨by decide, by decide, rfl⟩

/-- C3 (counterexample): with lockfile-drift tracking enabled but the
referenced lockfile missing and nothing stored, the persisted record after
`refreshState` has no `pnpmShrinkwrapHash` field even though the flag is
enabled — refuting "an enabled flag's field is present". -/
theorem refreshState_enabled_flag_field_absent_cex :
    preventShrinkwrapChanges rcLockfileMissing = true ∧
    (serializeRecord
      ((refreshState stringifyStub rcLockfileMissing emptyTracker).tracker)).pnpmShrinkwrapHash =
      none := by
  decide

/-- C3 (amended): after `refreshState`, a disabled flag's field is absent
from the serialized record even if a value was stored before the call; an
enabled workspace flag's field is present (for a non-empty computed hash);
and an enabled lockfile flag's field is present provided the referenced
lockfile was located during the refresh (and its hash is non-empty). -/
theorem refreshState_flag_driven_presence (stringify : IRepoStateJson → String)
    (rc : RushConfiguration) (t : RepoStateFile) :
    (preventShrinkwrapChanges rc = false →
      (serializeRecord ((refreshState stringify rc t).tracker)).pnpmShrinkwrapHash = none) ∧
    (useWorkspaces rc = false →
      (serializeRecord ((refreshState stringify rc t).tracker)).preferredVersionsHash = none) ∧
    (∀ swf, preventShrinkwrapChanges rc = true → rc.committedShrinkwrapFile = some swf →
      swf.getShrinkwrapHash rc.omitImportersFromPreventManualShrinkwrapChanges ≠ "" →
      (serializeRecord ((refreshState stringify rc t).tracker)).pnpmShrinkwrapHash =
        some (swf.getShrinkwrapHash rc.omitImportersFromPreventManualShrinkwrapChanges)) ∧
    (useWorkspaces rc = true → rc.preferredVersionsHash ≠ "" →
      (serializeRecord ((refreshState stringify rc t).tracker)).preferredVersionsHash =
        some rc.preferredVersionsHash) := by
  rw [refreshState_tracker_eq]
  refine ⟨?_, ?_, ?_, ?_⟩
  · intro h
    simp [serializeRecord, nextShrinkwrapHash, h, truthyString]
  · intro h
    simp [serializeRecord, nextPreferredVersionsHash, h, truthyString]
  · intro swf hp hf hne
    simp [serializeRecord, nextShrinkwrapHash, hp, hf, truthyString, hne]
  · intro hw hne
    simp [serializeRecord, nextPreferredVersionsHash, hw, truthyString, hne]

theorem refreshState_flag_driven_presence_witness :
    (serializeRecord
      ((refreshState stringifyStub rcBothOn trackerWithOldHash).tracker)).pnpmShrinkwrapHash =
        some "swhash" ∧
    (serializeRecord
      ((refreshState stringifyStub rcBothOn trackerWithOldHash).tracker)).preferredVersionsHash =
        some "pvhash" ∧
    (serializeRecord
      ((refreshState stringifyStub rcBothOff trackerWithOldHash).tracker)).pnpmShrinkwrapHash =
        none ∧
    (serializeRecord
      ((refreshState stringifyStub rcBothOff trackerWithOldHash).tracker)).preferredVersionsHash =
        none :=
  ⟨(refreshState_flag_driven_presence stringifyStub rcBothOn trackerWithOldHash).2.2.1
      { getShrinkwrapHash := fun _ => "swhash" } rfl rfl (by decide),
   (refreshState_flag_driven_presence stringifyStub rcBothOn trackerWithOldHash).2.2.2
      rfl (by decide),
   (refreshState_flag_driven_presence stringifyStub rcBothOff trackerWithOldHash).1 rfl,
   (refreshState_flag_driven_presence stringifyStub rcBothOff trackerWithOldHash).2.1 rfl⟩

/-- C4 (counterexample): lockfile-drift tracking enabled, lockfile missing,
a hash stored — after `refreshState` the stored shrinkwrap hash is still
there, refuting "the stored shrinkwrap-hash field is cleared if it was
present". -/
theorem refreshState_missing_lockfile_cex :
    preventShrinkwrapChanges rcLockfileMissing = true ∧
    rcLockfileMissing.committedShrinkwrapFile = none ∧
    trackerWithOldHash.pnpmShrinkwrapHash = some "old" ∧
    (refreshState stringifyStub rcLockfileMissing trackerWithOldHash).tracker.pnpmShrinkwrapHash =
      some "old" :=
  ⟨by decide, rfl, by decide, by decide⟩

/-- C4 (amended): whenever lockfile-drift tracking is enabled but the
referenced lockfile cannot be located during `refreshState`, the condition
is recoverable (the refresh completes normally) and the stored
shrinkwrap-hash field is left unchanged — kept if present, absent if
absent — rather than cleared. -/
theorem refreshState_missing_lockfile_preserves_hash
    (stringify : IRepoStateJson → String) (rc : RushConfiguration) (t : RepoStateFile)
    (h1 : preventShrinkwrapChanges rc = true)
    (h2 : rc.committedShrinkwrapFile = none) :
    (refreshState stringify rc t).tracker.pnpmShrinkwrapHash = t.pnpmShrinkwrapHash := by
  rw [refreshState_tracker_eq]
  simp [nextShrinkwrapHash, h1, h2]

theorem refreshState_missing_lockfile_preserves_hash_witness :
    preventShrinkwrapChanges rcLockfileMissing = true ∧
    rcLockfileMissing.committedShrinkwrapFile = none ∧
    (refreshState stringifyStub rcLockfileMissing trackerWithOldHash).tracker.pnpmShrinkwrapHash =
      trackerWithOldHash.pnpmShrinkwrapHash :=
  ⟨by decide, rfl,
    refreshState_missing_lockfile_preserves_hash stringifyStub rcLockfileMissing
      trackerWithOldHash (by decide) rfl⟩

/-- C5: calling `refreshState` twice in succession with unchanged inputs
performs exactly one write: whatever the first call did, running the call
again on the resulting tracker is a no-op that returns `false` and hands
nothing to the file writer. -/
theorem refreshState_idempotent (stringify : IRepoStateJson → String)
    (rc : RushConfiguration) (t : RepoStateFile) :
    refreshState stringify rc ((refreshState stringify rc t).tracker) =
      { tracker := (refreshState stringify rc t).tracker
        didWrite := false
        written := none } := by
  have h1 := refreshState_tracker_eq stringify rc t
  set t1 := (refreshState stringify rc t).tracker with ht1
  have hsw : t1.pnpmShrinkwrapHash = nextShrinkwrapHash rc t1.pnpmShrinkwrapHash := by
    rw [h1]
    simp [nextShrinkwrapHash_idem]
  have hpv : t1.preferredVersionsHash = nextPreferredVersionsHash rc := by
    rw [h1]
  have hval : t1.isValid = true := by
    rw [h1]
  have hmod : t1.modified = false := by
    rw [h1]
  have h2 : refreshShrinkwrap rc t1 = t1 := refreshShrinkwrap_fixed rc t1 hsw
  have h3 : refreshPreferredVersions rc t1 = t1 := refreshPreferredVersions_fixed rc t1 hpv
  have h4 : ({ t1 with isValid := true } : RepoStateFile) = t1 := by
    rw [← hval]
  unfold refreshState
  rw [h2, h3, h4]
  simp [saveIfModified, hmod]

/-- C6: after every `refreshState` call — whatever the flags, whether
anything changed, and whatever `isValid` was before — the tracker's
`isValid` is `true`. -/
theorem refreshState_isValid (stringify : IRepoStateJson → String)
    (rc : RushConfiguration) (t : RepoStateFile) :
    (refreshState stringify rc t).tracker.isValid = true := by
  rw [refreshState_tracker_eq]

/-- C7: writing the tracker out (banner line then the serialized record)
and loading the written content back — with the JSON collaborator pair
inverse on that content, which is its contract — reproduces exactly the
record's field set and values in the reloaded tracker, with `isValid =
true`. -/
theorem repoState_round_trip (stringify : IRepoStateJson → String)
    (parse : String → JsonParse) (t : RepoStateFile)
    (jsonFilename : String) (variant : Option String)
    (hparse : parse (saveContent stringify t) = JsonParse.ok (serializeRecord t)) :
    loadFromFile parse (some (saveContent stringify t)) jsonFilename variant =
      Except.ok { repoStateFilePath := jsonFilename
                  variant := variant
                  pnpmShrinkwrapHash := (serializeRecord t).pnpmShrinkwrapHash
                  preferredVersionsHash := (serializeRecord t).preferredVersionsHash
                  isValid := true
                  modified := false } := by
  simp [loadFromFile, hparse, RepoStateFile.ctor]

/-- Tracker used to instantiate the round-trip theorem. -/
def roundTripTracker : RepoStateFile :=
  { repoStateFilePath := "common/config/rush/repo-state.json"
    variant := some "variant-a"
    pnpmShrinkwrapHash := some "abc123"
    preferredVersionsHash := some "def456"
    isValid := true
    modified := false }

/-- Parse collaborator that inverts `stringifyStub` on the round-trip
content. -/
def roundTripParse : String → JsonParse :=
  fun _ =>
    JsonParse.ok { pnpmShrinkwrapHash := some "abc123", preferredVersionsHash := some "def456" }

theorem repoState_round_trip_witness :
    roundTripParse (saveContent stringifyStub roundTripTracker) =
      JsonParse.ok (serializeRecord roundTripTracker) ∧
    loadFromFile roundTripParse (some (saveContent stringifyStub roundTripTracker))
        "x.json" (some "variant-a") =
      Except.ok { repoStateFilePath := "x.json"
                  variant := some "variant-a"
                  pnpmShrinkwrapHash := (serializeRecord roundTripTracker).pnpmShrinkwrapHash
                  preferredVersionsHash := (serializeRecord roundTripTracker).preferredVersionsHash
                  isValid := true
                  modified := false } :=
  ⟨by decide,
    repoState_round_trip stringifyStub roundTripParse roundTripTracker "x.json"
      (some "variant-a") (by decide)⟩

/-- Configuration of the concrete scenario of C8: lockfile tracking on,
lockfile present hashing to abc, workspace tracking off. -/
def scenarioConfig : RushConfiguration :=
  { packageManager := "pnpm"
    pnpmOptions := some { preventManualShrinkwrapChanges := true, useWorkspaces := false }
    omitImportersFromPreventManualShrinkwrapChanges := false
    committedShrinkwrapFile := some { getShrinkwrapHash := fun _ => "abc" }
    preferredVersionsHash := "unused" }

/-- Tracker of the concrete scenario of C8: stored shrinkwrap hash abc,
stored preferred-versions hash present. -/
def scenarioTracker : RepoStateFile :=
  { repoStateFilePath := "common/config/rush/repo-state.json"
    variant := none
    pnpmShrinkwrapHash := some "abc"
    preferredVersionsHash := some "storedPreferred"
    isValid := true
    modified := false }

/-- C8: in the scenario (lockfile tracking on, stored and computed hash
both abc, workspace tracking off, preferred-versions hash stored),
`refreshState` returns `true` and the record it hands to the JSON
stringifier omits `preferredVersionsHash` entirely while keeping
`pnpmShrinkwrapHash` equal to abc. -/
theorem refreshState_concrete_scenario (stringify : IRepoStateJson → String) :
    refreshState stringify scenarioConfig scenarioTracker =
      { tracker := { scenarioTracker with preferredVersionsHash := none }
        didWrite := true
        written := some (bannerComment ++ "\n" ++
          stringify { pnpmShrinkwrapHash := some "abc", preferredVersionsHash := none }) } := by
  rfl

/-- Concatenation of a list of strings. -/
def joinStrings : List String → String
  | [] => ""
  | s :: ss => s ++ joinStrings ss

theorem render_append (a b : List TerminalWrite) :
    render (a ++ b) = render a ++ render b := by
  induction a with
  | nil => rfl
  | cons e es ih =>
    simp only [List.cons_append, render, List.append_eq, ih, String.append_assoc]

theorem renderWrite_headerWrite (sev : CustomTipSeverity) (h : String) :
    renderWrite (headerWrite sev h) = h ++ "\n" := by
  cases sev <;> rfl

theorem render_pipe_lines (m : TerminalWrite) (ls : List String) :
    render (ls.flatMap
        (fun line => [m, TerminalWrite.writeLine (stripTwoSpaceIndent line)])) =
      joinStrings (ls.map
        (fun line => renderWrite m ++ (stripTwoSpaceIndent line ++ "\n"))) := by
  induction ls with
  | nil => rfl
  | cons l ls ih =>
    rw [List.flatMap_cons, render_append, List.map_cons, joinStrings, ih]
    simp [render, renderWrite, String.append_assoc, String.append_empty]

theorem render_writeMessage (wrapWords : String → String) (tipMap : TipMap)
    (sev : CustomTipSeverity) (tipId : CustomTipId) (item : ICustomTipItemJson)
    (h : tipMap.lookup tipId.value = some item) :
    render (writeMessageWithPipes wrapWords tipMap sev tipId) =
      formatMessageHeader tipId ++ "\n" ++
        joinStrings ((jsSplitOnNewline (wrapWords item.message)).map
          (fun line => renderWrite (marginWrite sev) ++ (stripTwoSpaceIndent line ++ "\n"))) ++
        "\n" := by
  simp only [writeMessageWithPipes, h]
  rw [render_append]
  simp only [render, renderWrite_headerWrite]
  rw [render_pipe_lines]
  simp [renderWrite, String.append_assoc, String.append_empty]

theorem customTipRegistry_severity (tipId : CustomTipId) :
    (customTipRegistry tipId).severity = CustomTipSeverity.Error := by
  cases tipId <;> rfl

theorem showTip_as_showErrorTip (wrapWords : String → String) (tipMap : TipMap)
    (tipId : CustomTipId) :
    showTip wrapWords tipMap tipId = showErrorTip wrapWords tipMap tipId := by
  unfold showTip showErrorTip
  cases hm : tipMap.lookup tipId.value with
  | none => simp [writeMessageWithPipes, hm]
  | some item => simp [customTipRegistry_severity]

theorem writeMessageWithPipes_undefined (wrapWords : String → String)
    (tipMap : TipMap) (sev : CustomTipSeverity) (tipId : CustomTipId)
    (h : tipMap.lookup tipId.value = none) :
    writeMessageWithPipes wrapWords tipMap sev tipId = [] := by
  simp [writeMessageWithPipes, h]

theorem renderWrite_margin_error :
    renderWrite (marginWrite CustomTipSeverity.Error) = "| " := rfl

theorem renderWrite_margin_warning :
    renderWrite (marginWrite CustomTipSeverity.Warning) = "| " := rfl

theorem renderWrite_margin_info :
    renderWrite (marginWrite CustomTipSeverity.Info) = "| \n" := rfl

/-- C9 (amended): for a tip identifier with a configured message, the
show-tip operations emit the header produced by `_formatMessageHeader`
(the `| Custom Tip (<id>)` line followed by a bare `|` line); then, at
Error or Warning severity, every wrapped message line prefixed by a `| `
margin on the same line, while at Info severity the `| ` margin is emitted
as a line of its own before each (unprefixed) message line; the output
ends with a blank line.  `_showTip` behaves exactly like `_showErrorTip`
because every registry entry carries Error severity, and the
severity-specific operations use the caller's severity.  For an identifier
with no configured message, none of the operations writes anything. -/
theorem showTip_output_spec (wrapWords : String → String) (tipMap : TipMap)
    (tipId : CustomTipId) :
    (tipMap.lookup tipId.value = none →
      showTip wrapWords tipMap tipId = [] ∧
      showInfoTip wrapWords tipMap tipId = [] ∧
      showWarningTip wrapWords tipMap tipId = [] ∧
      showErrorTip wrapWords tipMap tipId = []) ∧
    (∀ item, tipMap.lookup tipId.value = some item →
      render (showErrorTip wrapWords tipMap tipId) =
        formatMessageHeader tipId ++ "\n" ++
          joinStrings ((jsSplitOnNewline (wrapWords item.message)).map
            (fun line => "| " ++ (stripTwoSpaceIndent line ++ "\n"))) ++ "\n" ∧
      render (showWarningTip wrapWords tipMap tipId) =
        formatMessageHeader tipId ++ "\n" ++
          joinStrings ((jsSplitOnNewline (wrapWords item.message)).map
            (fun line => "| " ++ (stripTwoSpaceIndent line ++ "\n"))) ++ "\n" ∧
      render (showInfoTip wrapWords tipMap tipId) =
        formatMessageHeader tipId ++ "\n" ++
          joinStrings ((jsSplitOnNewline (wrapWords item.message)).map
            (fun line => "| \n" ++ (stripTwoSpaceIndent line ++ "\n"))) ++ "\n") ∧
    showTip wrapWords tipMap tipId = showErrorTip wrapWords tipMap tipId := by
  refine ⟨?_, ?_, showTip_as_showErrorTip wrapWords tipMap tipId⟩
  · intro h
    refine ⟨?_, ?_, ?_, ?_⟩ <;>
      simp [showTip, showInfoTip, showWarningTip, showErrorTip,
        writeMessageWithPipes_undefined, h]
  · intro item h
    refine ⟨?_, ?_, ?_⟩
    · simp only [showErrorTip]
      rw [render_writeMessage wrapWords tipMap CustomTipSeverity.Error tipId item h]
      simp only [renderWrite_margin_error]
    · simp only [showWarningTip]
      rw [render_writeMessage wrapWords tipMap CustomTipSeverity.Warning tipId item h]
      simp only [renderWrite_margin_warning]
    · simp only [showInfoTip]
      rw [render_writeMessage wrapWords tipMap CustomTipSeverity.Info tipId item h]
      simp only [renderWrite_margin_info]

/-- Wrap-words collaborator stub: no wrapping needed, only the two-space
indent that `PrintUtilities.wrapWords(message, undefined, 2)` prepends. -/
def wrapWordsStub : String → String := fun s => "  " ++ s

/-- Configured custom tip used in the C9 scenarios. -/
def peerDepTipItem : ICustomTipItemJson :=
  { tipId := "TIP_PNPM_PEER_DEP_ISSUES", message := "hello" }

/-- Tip map holding exactly `peerDepTipItem`. -/
def peerDepTipMap : TipMap := [("TIP_PNPM_PEER_DEP_ISSUES", peerDepTipItem)]

/-- C9 (counterexample): at Info severity the message is NOT framed with a
`| ` left margin on every line — the margin is written with `writeLine`,
so it lands on its own line and the message line `hello` appears with no
margin at all (and the header is followed by a bare `|` line rather than
being a single line). -/
theorem showInfoTip_unframed_message_cex :
    render (showInfoTip wrapWordsStub peerDepTipMap
        CustomTipId.TIP_PNPM_PEER_DEP_ISSUES) =
      "| Custom Tip (TIP_PNPM_PEER_DEP_ISSUES)\n|\n| \nhello\n\n" ∧
    "hello" ∈ jsSplitOnNewline (render (showInfoTip wrapWordsStub peerDepTipMap
        CustomTipId.TIP_PNPM_PEER_DEP_ISSUES)) ∧
    "| hello" ∉ jsSplitOnNewline (render (showInfoTip wrapWordsStub peerDepTipMap
        CustomTipId.TIP_PNPM_PEER_DEP_ISSUES)) :=
  ⟨rfl, by decide, by decide⟩

/-- Configured custom tip used in the C9 witness. -/
def outdatedTipItem : ICustomTipItemJson :=
  { tipId := "TIP_PNPM_OUTDATED_LOCKFILE", message := "check lockfile" }

/-- Tip map holding exactly `outdatedTipItem`. -/
def outdatedTipMap : TipMap := [("TIP_PNPM_OUTDATED_LOCKFILE", outdatedTipItem)]

theorem showTip_output_spec_witness :
    showErrorTip wrapWordsStub ([] : TipMap) CustomTipId.TIP_PNPM_OUTDATED_LOCKFILE = [] ∧
    render (showInfoTip wrapWordsStub outdatedTipMap
        CustomTipId.TIP_PNPM_OUTDATED_LOCKFILE) =
      formatMessageHeader CustomTipId.TIP_PNPM_OUTDATED_LOCKFILE ++ "\n" ++
        joinStrings ((jsSplitOnNewline (wrapWordsStub outdatedTipItem.message)).map
          (fun line => "| \n" ++ (stripTwoSpaceIndent line ++ "\n"))) ++ "\n" :=
  ⟨((showTip_output_spec wrapWordsStub ([] : TipMap)
      CustomTipId.TIP_PNPM_OUTDATED_LOCKFILE).1 rfl).2.2.2,
   ((showTip_output_spec wrapWordsStub outdatedTipMap
      CustomTipId.TIP_PNPM_OUTDATED_LOCKFILE).2.1 outdatedTipItem (by decide)).2.2⟩

theorem lookup_eq_none_of_not_mem_keys (k : String) (l : TipMap)
    (h : k ∉ l.map Prod.fst) : l.lookup k = none := by
  induction l with
  | nil => rfl
  | cons p ps ih =>
    cases p with
    | mk k' v =>
      simp only [List.map_cons, List.mem_cons] at h
      push_neg at h
      have hb : (k == k') = false := beq_eq_false_iff_ne.mpr h.1
      simp [List.lookup, hb, ih h.2]

theorem lookup_isSome_of_mem_keys (k : String) (l : TipMap)
    (h : k ∈ l.map Prod.fst) : (l.lookup k).isSome = true := by
  induction l with
  | nil => simp at h
  | cons p ps ih =>
    cases p with
    | mk k' v =>
      simp only [List.map_cons, List.mem_cons] at h
      by_cases hk : k = k'
      · have hb : (k == k') = true := beq_iff_eq.mpr hk
        simp [List.lookup, hb]
      · have hb : (k == k') = false := beq_eq_false_iff_ne.mpr hk
        simp [List.lookup, hb, ih (h.resolve_left hk)]

theorem buildTipMap_ok_of (f : String) :
    ∀ (items : List ICustomTipItemJson) (acc : TipMap),
      (∀ i ∈ items, (CustomTipId.ofString i.tipId).isSome = true) →
      (acc.map Prod.fst ++ items.map (·.tipId)).Nodup →
      buildTipMap f items acc =
        Except.ok (acc ++ items.map (fun i => (i.tipId, i))) := by
  intro items
  induction items with
  | nil =>
    intro acc _ _
    simp [buildTipMap]
  | cons item rest ih =>
    intro acc hvalid hnodup
    have hv : (CustomTipId.ofString item.tipId).isNone = false := by
      have := hvalid item (by simp)
      cases hov : CustomTipId.ofString item.tipId <;> simp_all
    have hkeys : item.tipId ∉ acc.map Prod.fst := by
      intro hmem
      rw [List.nodup_append] at hnodup
      exact hnodup.2.2 hmem (by simp)
    have hlk : acc.lookup item.tipId = none :=
      lookup_eq_none_of_not_mem_keys _ _ hkeys
    rw [buildTipMap, if_neg (by simp [hv]), if_neg (by simp [hlk])]
    rw [ih (acc ++ [(item.tipId, item)])
      (fun i hi => hvalid i (by simp [hi]))
      (by simpa [List.map_append, List.append_assoc] using hnodup)]
    simp

theorem buildTipMap_ok_nodup (f : String) :
    ∀ (items : List ICustomTipItemJson) (acc m : TipMap),
      (acc.map Prod.fst).Nodup →
      buildTipMap f items acc = Except.ok m →
      (∀ i ∈ items, (CustomTipId.ofString i.tipId).isSome = true) ∧
      (acc.map Prod.fst ++ items.map (·.tipId)).Nodup := by
  intro items
  induction items with
  | nil =>
    intro acc m hacc _
    constructor
    · simp
    · simpa using hacc
  | cons item rest ih =>
    intro acc m hacc h
    rw [buildTipMap] at h
    by_cases hv : (CustomTipId.ofString item.tipId).isNone
    · rw [if_pos hv] at h
      exact absurd h (by simp)
    · rw [if_neg hv] at h
      by_cases hlk : (List.lookup item.tipId acc).isSome
      · rw [if_pos hlk] at h
        exact absurd h (by simp)
      · rw [if_neg hlk] at h
        have hk : item.tipId ∉ acc.map Prod.fst := fun hmem =>
          hlk (lookup_isSome_of_mem_keys _ _ hmem)
        have hacc' : ((acc ++ [(item.tipId, item)]).map Prod.fst).Nodup := by
          rw [List.map_append, List.nodup_append]
          refine ⟨hacc, by simp, ?_⟩
          intro a ha hb
          simp only [List.map_cons, List.map_nil, List.mem_singleton] at hb
          subst hb
          exact hk ha
        obtain ⟨hvr, hnd⟩ := ih (acc ++ [(item.tipId, item)]) m hacc' h
        constructor
        · intro i hi
          rcases List.mem_cons.mp hi with rfl | hi'
          · exact Option.isSome_iff_ne_none.mpr (by simpa using hv)
          · exact hvr i hi'
        · simpa [List.map_append, List.append_assoc] using hnd

theorem buildTipMap_error_shape (f : String) :
    ∀ (items : List ICustomTipItemJson) (acc : TipMap) (e : String),
      buildTipMap f items acc = Except.error e →
      ∃ s, e = "The " ++ basename f ++ " configuration" ++ s := by
  intro items
  induction items with
  | nil =>
    intro acc e h
    simp [buildTipMap] at h
  | cons item rest ih =>
    intro acc e h
    rw [buildTipMap] at h
    by_cases hv : (CustomTipId.ofString item.tipId).isNone
    · rw [if_pos hv] at h
      injection h with h2
      exact ⟨" references an unknown ID \"" ++ item.tipId ++ "\"",
        by rw [← h2]; simp only [String.append_assoc]⟩
    · rw [if_neg hv] at h
      by_cases hlk : (List.lookup item.tipId acc).isSome
      · rw [if_pos hlk] at h
        injection h with h2
        exact ⟨" specifies a duplicate definition for \"" ++ item.tipId ++ "\"",
          by rw [← h2]; simp only [String.append_assoc]⟩
      · rw [if_neg hlk] at h
        exact ih _ e h

/-- C10: loading an existing `custom-tips.json` whose `customTips` list
has only known, pairwise-distinct `tipId`s registers every listed tip
exactly once in the tip map (in order, keyed by its id); a list containing
an id outside the `CustomTipId` enum or a duplicated id makes the
constructor throw an error whose message names the configuration file
(via its basename). -/
theorem customTipsConfiguration_ctor_spec (configFilename : String)
    (items : List ICustomTipItemJson) :
    ((∀ i ∈ items, (CustomTipId.ofString i.tipId).isSome = true) ∧
        (items.map (·.tipId)).Nodup →
      customTipsConfigurationCtor configFilename
          (some { customTips := some items }) =
        Except.ok { jsonFileName := configFilename
                    customTips := some items
                    tipMap := items.map (fun i => (i.tipId, i)) }) ∧
    (¬ ((∀ i ∈ items, (CustomTipId.ofString i.tipId).isSome = true) ∧
        (items.map (·.tipId)).Nodup) →
      ∃ e s, customTipsConfigurationCtor configFilename
          (some { customTips := some items }) = Except.error e ∧
        e = "The " ++ basename configFilename ++ " configuration" ++ s) := by
  constructor
  · intro hgood
    show Except.map (fun tipMap =>
        { jsonFileName := configFilename, customTips := some items,
          tipMap := tipMap : CustomTipsConfiguration })
      (buildTipMap configFilename items []) = _
    rw [buildTipMap_ok_of configFilename items [] hgood.1 (by simpa using hgood.2)]
    rfl
  · intro hbad
    cases hres : buildTipMap configFilename items [] with
    | ok m =>
      exfalso
      obtain ⟨hv, hn⟩ := buildTipMap_ok_nodup configFilename items [] m (by simp) hres
      exact hbad ⟨hv, by simpa using hn⟩
    | error e =>
      obtain ⟨s, hs⟩ := buildTipMap_error_shape configFilename items [] e hres
      refine ⟨e, s, ?_, hs⟩
      show Except.map (fun tipMap =>
          { jsonFileName := configFilename, customTips := some items,
            tipMap := tipMap : CustomTipsConfiguration })
        (buildTipMap configFilename items []) = Except.error e
      rw [hres]
      rfl

/-- Well-formed `customTips` list: known ids, no duplicates. -/
def goodTips : List ICustomTipItemJson :=
  [{ tipId := "TIP_PNPM_PEER_DEP_ISSUES", message := "m1" },
   { tipId := "TIP_RUSH_INCONSISTENT_VERSIONS", message := "m2" }]

/-- A `customTips` list with an id outside the enum. -/
def badTips : List ICustomTipItemJson :=
  [{ tipId := "TIP_TOTALLY_UNKNOWN", message := "m" }]

theorem customTipsConfiguration_ctor_spec_witness :
    customTipsConfigurationCtor "common/config/rush/custom-tips.json"
        (some { customTips := some goodTips }) =
      Except.ok { jsonFileName := "common/config/rush/custom-tips.json"
                  customTips := some goodTips
                  tipMap := goodTips.map (fun i => (i.tipId, i)) } ∧
    (∃ e s, customTipsConfigurationCtor "common/config/rush/custom-tips.json"
        (some { customTips := some badTips }) = Except.error e ∧
      e = "The " ++ basename "common/config/rush/custom-tips.json" ++
        " configuration" ++ s) :=
  ⟨(customTipsConfiguration_ctor_spec _ goodTips).1 (by decide),
   (customTipsConfiguration_ctor_spec _ badTips).2 (by decide)⟩

end RushStack
